import Mathlib

/-!
Verification of the `latent` Markdown-vault indexing and retrieval core.

This file gives a shallow embedding, in Lean 4, of the components of the
repository that the verified properties are about:

* the token-window chunker (`src/main/indexer/chunker.ts`, `chunkDocument`);
* the path-sandboxing validator and the path-accepting agent tools
  (`src/main/ai/tools.ts`, `validatePath`, `readNote`);
* the relational content store and its query layer
  (`src/main/db/schema.ts`, `src/main/db/queries.ts`);
* the indexer orchestration (`src/main/indexer/parser.ts`, `Indexer.indexFile`,
  `Indexer.deleteFile`);
* cosine similarity and the vector search pipeline
  (`cosineSimilarity`, `searchNotesByVector`).

Modelling conventions used throughout:

* The tiktoken `cl100k_base` tokenizer is external to the repository, so text
  is modelled at the token level: a document body is a `List Nat` of token
  ids.  The tokenizer is lossless (`decode (encode s) = s`), hence the empty
  string encodes to `[]` and every non-empty string encodes to a non-empty
  token list; the embedding relies only on this.
* JavaScript numbers used for similarity scores are modelled as `ℚ` (the
  structural search claims do not depend on rounding), except for
  `cosineSimilarity` itself, which is modelled over `ℝ` so that the square
  root is exact.
* Fallible code is modelled with `Option`/`Except`; a thrown JS exception is
  an `Except.error`.
-/

/-! ## Chunker (`src/main/indexer/chunker.ts`)

`chunkDocument(content, chunkSize, overlap)` encodes the content, then slides
a window of `chunkSize` tokens forward by `chunkSize - overlap` tokens.  A
window of fewer than 50 tokens is not emitted as its own chunk when at least
one chunk already exists: its text and token count are appended onto the
previous chunk instead.
-/

/-- One element of the `TextChunk[]` result of `chunkDocument`.  `content` is
kept at the token level (the source stores the decoded text; the decoded
newline separator inserted between a chunk and an appended tiny window is
dropped by the token-level model, while `tokenCount` mirrors the source
exactly). -/
structure TextChunk where
  content : List Nat
  index : Nat
  tokenCount : Nat
  deriving Repr, DecidableEq

/-- The `chunks[chunks.length - 1].content += ...; tokenCount += ...` branch
of the loop: append the current window onto the most recently emitted chunk.
The accumulator is kept in reverse order, so the most recent chunk is the
head. -/
def bumpLast (window : List Nat) : List TextChunk → List TextChunk
  | [] => []
  | last :: rest =>
    { last with
      content := last.content ++ window,
      tokenCount := last.tokenCount + window.length } :: rest

/-- The `for (let i = 0; i < tokens.length; i += chunkSize - overlap)` loop of
`chunkDocument`.  `fuel` is a structural-recursion bound only: with
`0 < step` the loop runs at most `tokens.length` times, and every caller
passes `tokens.length + 1`, so the fuel never runs out.  (When
`overlap ≥ chunkSize` the JS loop does not advance; all verified claims
assume `overlap < chunkSize`.)  The accumulator is in reverse order. -/
def chunkLoop (tokens : List Nat) (chunkSize step : Nat) :
    Nat → Nat → Nat → List TextChunk → List TextChunk
  | 0, _, _, acc => acc
  | fuel + 1, i, idx, acc =>
    if i < tokens.length then
      let window := (tokens.drop i).take chunkSize
      if window.length < 50 ∧ acc ≠ [] then
        chunkLoop tokens chunkSize step fuel (i + step) idx (bumpLast window acc)
      else
        chunkLoop tokens chunkSize step fuel (i + step) (idx + 1)
          (⟨window, idx, window.length⟩ :: acc)
    else acc

/-- `chunkDocument` from `src/main/indexer/chunker.ts`, at the token level:
the argument is `encode content` for the cl100k_base encoding. -/
def chunkDocument (tokens : List Nat) (chunkSize overlap : Nat) : List TextChunk :=
  (chunkLoop tokens chunkSize (chunkSize - overlap) (tokens.length + 1) 0 0 []).reverse

/-! ## Path sandboxing (`src/main/ai/tools.ts`)

`validatePath(requestedPath)` computes `path.resolve(vaultPath,
requestedPath)` and throws unless the resolved string starts with
`path.resolve(vaultPath)`.  POSIX path resolution is modelled structurally:
split on `/`, drop empty and `.` components, let `..` pop the previous
component (staying at the root when there is none), and render with a leading
slash.  The vault path is assumed absolute, as it is in the application. -/

/-- Split a character list on `/` separators. -/
def splitSlash : List Char → List Char → List (List Char)
  | [], cur => [cur.reverse]
  | c :: rest, cur =>
    if c = '/' then cur.reverse :: splitSlash rest [] else splitSlash rest (c :: cur)

/-- The non-empty, non-`.` components of a path string. -/
def pathComponents (s : String) : List (List Char) :=
  (splitSlash s.data []).filter (fun c => c ≠ [] ∧ c ≠ ['.'])

/-- One normalization step: `..` removes the previous component (a no-op at
the root of an absolute path, as in Node's `path.resolve`); anything else is
kept. -/
def normStep (acc : List (List Char)) (comp : List Char) : List (List Char) :=
  if comp = ['.', '.'] then acc.dropLast else acc ++ [comp]

/-- Render normalized components as an absolute path string. -/
def renderPath (comps : List (List Char)) : String :=
  ⟨'/' :: List.intercalate ['/'] comps⟩

/-- Whether a path string is absolute. -/
def isAbsolute (s : String) : Bool :=
  match s.data with
  | '/' :: _ => true
  | _ => false

/-- `path.resolve(base, req)` for an absolute `base`: an absolute `req`
ignores `base`; otherwise the concatenated component lists are normalized
jointly. -/
def pathResolve (base req : String) : String :=
  if isAbsolute req then renderPath ((pathComponents req).foldl normStep [])
  else renderPath ((pathComponents base ++ pathComponents req).foldl normStep [])

/-- `path.resolve(p)` for an absolute `p`: pure normalization. -/
def pathResolveOne (p : String) : String :=
  renderPath ((pathComponents p).foldl normStep [])

/-- `validatePath` from `src/main/ai/tools.ts`: resolve the requested path
against the vault root and accept exactly when the resolved string has the
resolved vault root as a *string* prefix (`fullPath.startsWith(...)`).
`none` models the thrown `Invalid path: must be within vault directory`. -/
def validatePath (vaultPath requestedPath : String) : Option String :=
  let fullPath := pathResolve vaultPath requestedPath
  if (pathResolveOne vaultPath).data.isPrefixOf fullPath.data then some fullPath
  else none

/-- The specification's sandboxing notion: a resolved location is inside the
vault root exactly when the vault root's components are a component-wise
prefix of the resolved path's components. -/
def insideVault (vaultPath fullPath : String) : Bool :=
  ((pathComponents vaultPath).foldl normStep []).isPrefixOf
    ((pathComponents fullPath).foldl normStep [])

/-- `readNote` from `src/main/ai/tools.ts`, over an abstract filesystem
mapping absolute paths to file contents.  The path is validated before any
filesystem access; a missing file is the thrown `Note not found` error (the
ENOENT retry loop always ends in one of these two outcomes). -/
def readNote (vaultPath : String) (fsys : String → Option String) (p : String) :
    Except String String :=
  match validatePath vaultPath p with
  | none => .error "Invalid path: must be within vault directory"
  | some fullPath =>
    match fsys fullPath with
    | some content => .ok content
    | none => .error ("Note not found: " ++ p)

/-! ## Content store (`src/main/db/schema.ts`, `src/main/db/queries.ts`)

The SQLite store is modelled as lists of rows.  The only foreign key in the
schema is `chunks.document_id REFERENCES documents(id) ON DELETE CASCADE`;
`links` carries no foreign key, only `UNIQUE(source_path, target_path,
link_type)`.  Embedding blobs (little-endian float32 arrays) are modelled as
the vectors themselves. -/

/-- A row of the `documents` table. -/
structure DocumentRow where
  id : Nat
  path : String
  checksum : String
  title : Option String
  wordCount : Nat
  createdAt : Int
  modifiedAt : Int
  lastIndexedAt : Option Int
  frontmatter : Option String
  deriving Repr, DecidableEq

/-- A row of the `chunks` table. -/
structure ChunkRow where
  id : Nat
  documentId : Nat
  content : String
  embedding : Option (List ℚ)
  embeddingModel : Option String
  chunkIndex : Nat
  tokenCount : Nat
  deriving Repr, DecidableEq

/-- A row of the `links` table. -/
structure LinkRow where
  id : Nat
  sourcePath : String
  targetPath : String
  linkType : String
  linkText : String
  deriving Repr, DecidableEq

/-- A row of the `settings` table. -/
structure SettingRow where
  key : String
  value : String
  updatedAt : Int
  deriving Repr, DecidableEq

/-- The database state, with the autoincrement counters. -/
structure DB where
  documents : List DocumentRow
  chunks : List ChunkRow
  links : List LinkRow
  settings : List SettingRow
  nextDocId : Nat
  nextChunkId : Nat
  nextLinkId : Nat
  deriving Repr, DecidableEq

/-- An empty database. -/
def DB.empty : DB := ⟨[], [], [], [], 1, 1, 1⟩

/-- `getDocumentByPath`: `SELECT * FROM documents WHERE path = ?`. -/
def getDocumentByPath (db : DB) (path : String) : Option DocumentRow :=
  db.documents.find? (fun d => d.path = path)

/-- The column payload of `insertDocument` (everything except the
autoincrement id and `last_indexed_at`, which the query computes itself). -/
structure DocumentData where
  path : String
  checksum : String
  title : Option String
  wordCount : Nat
  createdAt : Int
  modifiedAt : Int
  frontmatter : Option String
  deriving Repr, DecidableEq

/-- `insertDocument`: insert a `documents` row, stamping `last_indexed_at`
with the current time, and return `lastInsertRowid`. -/
def insertDocument (db : DB) (data : DocumentData) (now : Int) : Nat × DB :=
  let id := db.nextDocId
  (id,
    { db with
      documents := db.documents ++
        [⟨id, data.path, data.checksum, data.title, data.wordCount,
          data.createdAt, data.modifiedAt, some now, data.frontmatter⟩],
      nextDocId := id + 1 })

/-- `deleteDocument`: `DELETE FROM documents WHERE path = ?`; the
`ON DELETE CASCADE` foreign key removes the chunks of every deleted
document.  Nothing touches `links`, which have no foreign key. -/
def deleteDocument (db : DB) (path : String) : DB :=
  let doomed := (db.documents.filter (fun d => d.path = path)).map DocumentRow.id
  { db with
    documents := db.documents.filter (fun d => ¬ d.path = path),
    chunks := db.chunks.filter (fun c => ¬ c.documentId ∈ doomed) }

/-- A chunk as handed to `insertChunks`: decoded content, index, token
count. -/
structure StoredChunk where
  content : String
  index : Nat
  tokenCount : Nat
  deriving Repr, DecidableEq

/-- `insertChunks`: one `chunks` row per chunk, pairing chunk `i` with
`embeddings[i]` (absent entries behave as null, as in JS); a row's
`embedding_model` is the model name when the embedding is present and null
otherwise. -/
def insertChunks (db : DB) (documentId : Nat) :
    List StoredChunk → List (Option (List ℚ)) → String → DB
  | [], _, _ => db
  | c :: cs, es, modelName =>
    let e := (es.head?).join
    let db' :=
      { db with
        chunks := db.chunks ++
          [⟨db.nextChunkId, documentId, c.content, e,
            if e.isSome then some modelName else none, c.index, c.tokenCount⟩],
        nextChunkId := db.nextChunkId + 1 }
    insertChunks db' documentId cs es.tail modelName

/-- A parsed outgoing link, as produced by the Markdown parser. -/
structure ParsedLink where
  target : String
  linkType : String
  text : String
  deriving Repr, DecidableEq

/-- `insertLinks`: `INSERT OR IGNORE` per link; a link whose
`(source_path, target_path, link_type)` triple already exists is skipped. -/
def insertLinks (db : DB) (sourcePath : String) : List ParsedLink → DB
  | [] => db
  | lk :: rest =>
    let dup := db.links.any (fun l =>
      l.sourcePath = sourcePath ∧ l.targetPath = lk.target ∧ l.linkType = lk.linkType)
    let db' :=
      if dup then db
      else
        { db with
          links := db.links ++ [⟨db.nextLinkId, sourcePath, lk.target, lk.linkType, lk.text⟩],
          nextLinkId := db.nextLinkId + 1 }
    insertLinks db' sourcePath rest

/-- `deleteLinks`: `DELETE FROM links WHERE source_path = ?`. -/
def deleteLinks (db : DB) (sourcePath : String) : DB :=
  { db with links := db.links.filter (fun l => ¬ l.sourcePath = sourcePath) }

/-- `getSetting`: `SELECT value FROM settings WHERE key = ?` followed by
`result?.value || null` — in JavaScript the empty string is falsy, so an
empty stored value comes back as null. -/
def getSetting (db : DB) (key : String) : Option String :=
  match db.settings.find? (fun s => s.key = key) with
  | none => none
  | some row => if row.value = "" then none else some row.value

/-- `setSetting`: `INSERT OR REPLACE INTO settings`, stamping the update
time. -/
def setSetting (db : DB) (key value : String) (now : Int) : DB :=
  { db with settings := db.settings.filter (fun s => ¬ s.key = key) ++ [⟨key, value, now⟩] }

/-- The argument record of `indexDocument` in `src/main/db/queries.ts`. -/
structure IndexDocumentData where
  doc : DocumentData
  chunks : List StoredChunk
  embeddings : List (Option (List ℚ))
  embeddingModel : String
  links : List ParsedLink
  deriving Repr, DecidableEq

/-- `indexDocument`: inside one transaction, delete any existing document at
the path (cascading to its chunks) and the links sourced from it, then insert
the new document, its chunks, and its links. -/
def indexDocument (db : DB) (data : IndexDocumentData) (now : Int) : DB :=
  let db1 := deleteDocument db data.doc.path
  let db2 := deleteLinks db1 data.doc.path
  let (documentId, db3) := insertDocument db2 data.doc now
  let db4 := insertChunks db3 documentId data.chunks data.embeddings data.embeddingModel
  insertLinks db4 data.doc.path data.links

/-- `Indexer.deleteFile` from `src/main/indexer/parser.ts`: the `unlink`
handler calls `deleteDocument(relativePath)` and nothing else. -/
def deleteFile (db : DB) (relativePath : String) : DB :=
  deleteDocument db relativePath

/-! ## Indexer (`src/main/indexer/parser.ts`, class `Indexer`)

`indexFile` reads the file, hashes it, skips when the stored checksum
matches, otherwise parses, chunks, embeds (best effort) and persists through
`indexDocument`.  The external pieces — SHA-256, the tiktoken encoder and
decoder, the remark/gray-matter Markdown parser and the regex word counter —
are abstracted as context functions; the file content and timestamps stand
for the filesystem reads. -/

/-- The result of `parseMarkdown`: serialized frontmatter (null when the
document has none), first-H1 title, body, outgoing links. -/
structure ParsedDoc where
  frontmatter : Option String
  title : Option String
  content : String
  links : List ParsedLink
  deriving Repr, DecidableEq

/-- The embedding capability of `LLMProvider`: a batch of texts to one
vector per text plus the model name, or a thrown provider error. -/
structure EmbedProvider where
  embed : List String → Except String (List (List ℚ) × String)

/-- The external collaborators and tuning options of an `Indexer`
instance. -/
structure IndexerCtx where
  hash : String → String
  encode : String → List Nat
  decode : List Nat → String
  parse : String → ParsedDoc
  wordCount : String → Nat
  chunkSize : Nat
  chunkOverlap : Nat

/-- What one `indexFile` call did: the database afterwards, whether the
embedding provider was invoked, and whether a warning was reported. -/
structure IndexOutcome where
  db : DB
  embedInvoked : Bool
  warned : Bool
  deriving Repr, DecidableEq

/-- Token-level chunks decoded into the stored form. -/
def storedChunks (ctx : IndexerCtx) (chunks : List TextChunk) : List StoredChunk :=
  chunks.map (fun c => ⟨ctx.decode c.content, c.index, c.tokenCount⟩)

/-- `Indexer.indexFile`.  The checksum-equal case returns without touching
the database or the provider.  Otherwise the document is parsed and chunked;
when a provider is configured and there is at least one chunk, the batch
embed call is attempted and a failure is caught (`catch` block), falling
back to all-null embeddings with a warning; with no provider (or no chunks)
the chunks are stored without embeddings, also with a warning.  In every
case the result is persisted with `indexDocument`.  An `Except.error` would
model an exception escaping `indexFile`; every branch below returns
`Except.ok`. -/
def indexFile (ctx : IndexerCtx) (provider : Option EmbedProvider) (db : DB)
    (relativePath content : String) (createdAt modifiedAt now : Int) :
    Except String IndexOutcome :=
  let checksum := ctx.hash content
  if (getDocumentByPath db relativePath).map DocumentRow.checksum = some checksum then
    .ok ⟨db, false, false⟩
  else
    let parsed := ctx.parse content
    let docData : DocumentData :=
      ⟨relativePath, checksum, parsed.title, ctx.wordCount parsed.content,
        createdAt, modifiedAt, parsed.frontmatter⟩
    let chunks := chunkDocument (ctx.encode parsed.content) ctx.chunkSize ctx.chunkOverlap
    match provider, chunks with
    | some pr, c :: cs =>
      match pr.embed ((storedChunks ctx (c :: cs)).map StoredChunk.content) with
      | .ok (vecs, modelName) =>
        .ok ⟨indexDocument db
          ⟨docData, storedChunks ctx (c :: cs), vecs.map some, modelName, parsed.links⟩ now,
          true, false⟩
      | .error _ =>
        .ok ⟨indexDocument db
          ⟨docData, storedChunks ctx (c :: cs), (c :: cs).map (fun _ => none), "none",
            parsed.links⟩ now,
          true, true⟩
    | _, _ =>
      .ok ⟨indexDocument db
        ⟨docData, storedChunks ctx chunks, chunks.map (fun _ => none), "none",
          parsed.links⟩ now,
        false, true⟩

/-- A concrete indexer context for witnesses: identity hash, character-code
tokenizer, trivial parser and word counter, default chunk options. -/
def ctx0 : IndexerCtx :=
  ⟨fun s => s, fun s => s.data.map Char.toNat, fun l => ⟨l.map Char.ofNat⟩,
    fun s => ⟨none, none, s, []⟩, fun _ => 0, 500, 50⟩

/-- A database holding one indexed document at `a.md` whose checksum (under
the identity hash of `ctx0`) is the content `hello`. -/
def db1 : DB :=
  ⟨[⟨1, "a.md", "hello", none, 1, 0, 0, some 0, none⟩], [], [], [], 2, 1, 1⟩

/-- A provider whose embed call always fails. -/
def pr0 : EmbedProvider := ⟨fun _ => .error "connect ECONNREFUSED"⟩

/-! ## Cosine similarity (`src/main/db/schema.ts`)

`cosineSimilarity(a, b)` throws on a length mismatch, accumulates the dot
product and the two squared norms in one loop, and returns 0 when the
denominator `sqrt(normA) * sqrt(normB)` is zero.  The function is generic in
the square-root operation so that the exact-real instance (`Real.sqrt`) and
the rational search pipeline can share it. -/

/-- The accumulation loop of `cosineSimilarity`: `(dotProduct, normA,
normB)` after folding both vectors in step (indices past the shorter vector
are never reached, and the caller has already equated the lengths). -/
def simLoop {K : Type} [CommRing K] : List K → List K → K → K → K → K × K × K
  | a :: as, b :: bs, dot, na, nb => simLoop as bs (dot + a * b) (na + a * a) (nb + b * b)
  | _, _, dot, na, nb => (dot, na, nb)

/-- `cosineSimilarity`, generic in the scalar field and the square-root
function.  A length mismatch is the thrown validation error; a zero
denominator yields 0 rather than a division error. -/
def cosineSimilarityG {K : Type} [Field K] [DecidableEq K] (sqrtFn : K → K)
    (a b : List K) : Except String K :=
  if a.length ≠ b.length then .error "Vectors must have the same length"
  else
    let s := simLoop a b 0 0 0
    let denominator := sqrtFn s.2.1 * sqrtFn s.2.2
    .ok (if denominator = 0 then 0 else s.1 / denominator)

/-- `cosineSimilarity` from `src/main/db/schema.ts`, with JS numbers modelled
as exact reals and `Math.sqrt` as `Real.sqrt`. -/
noncomputable def cosineSimilarity (a b : List ℝ) : Except String ℝ :=
  cosineSimilarityG Real.sqrt a b

/-! ## Vector search (`src/main/db/queries.ts`, `searchNotesByVector`)

The query joins chunks with their documents, keeps rows with a non-null
embedding, applies the optional filters in SQL, scores each candidate with
`cosineSimilarity`, discards scores below `MIN_SIMILARITY_SCORE`, sorts
descending by score (ECMAScript `Array.prototype.sort` is stable, modelled by
the stable `insertionSort`), and truncates to `topK`.  Scores are modelled in
`ℚ`, with the square root as a function parameter; none of the verified
properties depend on its values. -/

/-- `MIN_SIMILARITY_SCORE` from `src/shared/constants.ts` (0.5). -/
def MIN_SIMILARITY_SCORE : ℚ := 1 / 2

/-- One row of a `searchNotesByVector` result. -/
structure SearchResult where
  path : String
  title : String
  chunk : String
  score : ℚ
  deriving Repr, DecidableEq

/-- The optional filter argument: a tag list and modification-date bounds
(the `new Date(...).getTime() / 1000` parse of the bound strings is
abstracted to the numeric bounds themselves). -/
structure SearchFilter where
  tags : Option (List String)
  dateAfter : Option Int
  dateBefore : Option Int
  deriving Repr, DecidableEq

/-- Containment of `needle` in `hay`, i.e. `LIKE '%needle%'` for a pattern
with no further wildcard characters in it (no verified claim uses a tag
containing `%` or `_`). -/
def containsSub : List Char → List Char → Bool
  | [], needle => needle.isEmpty
  | c :: t, needle => needle.isPrefixOf (c :: t) || containsSub t needle

/-- The SQL `WHERE` filters of `searchNotesByVector`: when a non-empty tag
list is given, only `filter.tags[0]` is used, as a raw `LIKE '%...%'`
substring of the JSON-serialized frontmatter (null frontmatter matches
nothing); the date bounds compare against `modified_at`. -/
def passesFilters (filter : Option SearchFilter) (d : DocumentRow) : Bool :=
  match filter with
  | none => true
  | some f =>
    (match f.tags with
      | some (t :: _) =>
        match d.frontmatter with
        | some fm => containsSub fm.data t.data
        | none => false
      | _ => true) &&
    (match f.dateAfter with
      | some a => decide (a ≤ d.modifiedAt)
      | none => true) &&
    (match f.dateBefore with
      | some b => decide (d.modifiedAt ≤ b)
      | none => true)

/-- The candidate rows of the search query: chunks with a non-null
embedding, joined to their document, with the filters applied, in chunk
table order. -/
def searchCandidates (db : DB) (filter : Option SearchFilter) :
    List (List ℚ × ChunkRow × DocumentRow) :=
  db.chunks.filterMap fun c =>
    match c.embedding with
    | some e =>
      match db.documents.find? (fun d => d.id = c.documentId) with
      | some d => if passesFilters filter d then some (e, c, d) else none
      | none => none
    | none => none

/-- `chunk.title || chunk.path`: the title, falling back to the path when the
title is null or (JS falsy) empty. -/
def titleOrPath (d : DocumentRow) : String :=
  match d.title with
  | some t => if t = "" then d.path else t
  | none => d.path

/-- Score every candidate with `cosineSimilarity` against the query vector;
the first scoring error (a length mismatch) propagates, as the thrown
exception does in the source's `.map` callback. -/
def scoreCandidates (sqrtFn : ℚ → ℚ) (queryEmbedding : List ℚ) :
    List (List ℚ × ChunkRow × DocumentRow) → Except String (List SearchResult)
  | [] => .ok []
  | (e, c, d) :: rest =>
    match cosineSimilarityG sqrtFn queryEmbedding e with
    | .error msg => .error msg
    | .ok score =>
      match scoreCandidates sqrtFn queryEmbedding rest with
      | .error msg => .error msg
      | .ok tail => .ok (⟨d.path, titleOrPath d, c.content, score⟩ :: tail)

/-- The `.sort((a, b) => b.score - a.score)` comparator as a relation:
descending by score. -/
def scoreRel (a b : SearchResult) : Prop := b.score ≤ a.score

instance : DecidableRel scoreRel := fun a b =>
  inferInstanceAs (Decidable (b.score ≤ a.score))

instance : IsTotal SearchResult scoreRel := ⟨fun a b => le_total b.score a.score⟩

instance : IsTrans SearchResult scoreRel := ⟨fun _ _ _ h1 h2 => le_trans h2 h1⟩

/-- `searchNotesByVector` from `src/main/db/queries.ts`: score the candidate
rows, drop results below the similarity floor, sort descending by score with
a stable sort, and truncate to `topK`. -/
def searchNotesByVector (sqrtFn : ℚ → ℚ) (db : DB) (queryEmbedding : List ℚ)
    (topK : Nat) (filter : Option SearchFilter) : Except String (List SearchResult) :=
  (scoreCandidates sqrtFn queryEmbedding (searchCandidates db filter)).map
    fun scored =>
      ((scored.filter (fun r => MIN_SIMILARITY_SCORE ≤ r.score)).insertionSort
        scoreRel).take topK

/-- A database with one embedded chunk for the C6 witness: document `a.md`
titled `T` with one chunk `body` embedded as the vector `[1]`. -/
def dbSearch : DB :=
  ⟨[⟨1, "a.md", "c", some "T", 1, 0, 0, some 0, none⟩],
   [⟨1, 1, "body", some [1], some "m", 0, 3⟩], [], [], 2, 2, 1⟩

/-- A database for C9: one document whose serialized frontmatter mentions the
tag `physicsfoo`, with one embedded chunk.  The string `physics` is a raw
substring of the frontmatter JSON but is not a member of its tag list. -/
def dbTags : DB :=
  ⟨[⟨1, "t.md", "c", none, 1, 0, 0, some 0, some "\x7b\"tags\": [\"physicsfoo\"]\x7d"⟩],
   [⟨1, 1, "body", some [1], some "m", 0, 3⟩], [], [], 2, 2, 1⟩

/-! ## Verified claims -/

/-- C2.  The chunk-size invariant fails on the merge-tiny-trailing-window
path: for a 20-token document with `maxTokens = 10`, `overlap = 2`
(`overlap < maxTokens`), the loop emits one 10-token chunk and then appends
the two remaining windows (10 and 4 tokens) onto it, so the single emitted
chunk records `tokenCount = 24 > maxTokens`.  This contradicts the claim and
the repository's own tests (`should respect chunk size limit`, `should handle
very small chunk size`), which assert `tokenCount ≤ maxTokens` for every
chunk. -/
theorem chunkDocument_exceeds_maxTokens :
    (chunkDocument (List.range 20) 10 2).map TextChunk.tokenCount = [24] ∧ 10 < 24 := by
  constructor
  · rfl
  · decide

/-- C7.  A whitespace-only input does not yield zero chunks: whitespace is
non-empty text, so (the tokenizer being lossless) it encodes to a non-empty
token list, e.g. a four-token encoding of the repository test input
`'   \n\n\t  '`; the loop then pushes that window as a chunk because the
accumulator is still empty.  The result has one chunk, not zero, contradicting
the claim and the repository's own test (`should handle whitespace-only
input`, which expects zero chunks). -/
theorem chunkDocument_whitespace_one_chunk :
    chunkDocument [256, 271, 197, 220] 500 50 = [⟨[256, 271, 197, 220], 0, 4⟩] ∧
      ([] : List TextChunk).length = 0 := by
  constructor
  · rfl
  · rfl

/-- C1.  The sandbox check is a raw string-prefix test with no separator, so
a sibling directory whose name extends the vault root's name escapes it: with
vault root `/vault`, the request `../vaultx/pw.md` resolves to
`/vaultx/pw.md`, which is outside the vault root (`vaultx ≠ vault`) yet
starts with the string `/vault`.  `validatePath` accepts it and `read_note`
happily reads the out-of-vault file, contradicting the claim (and the
`Prevent directory traversal attacks` intent stated in the source). -/
theorem validatePath_prefix_escape :
    validatePath "/vault" "../vaultx/pw.md" = some "/vaultx/pw.md" ∧
      insideVault "/vault" "/vaultx/pw.md" = false ∧
      readNote "/vault" (fun p => if p = "/vaultx/pw.md" then some "SECRET" else none)
          "../vaultx/pw.md" = .ok "SECRET" := by
  refine ⟨by decide, by decide, ?_⟩
  rfl

/-- C4.  Handling `unlink` does *not* remove the links sourced from the
deleted path: `Indexer.deleteFile` only calls `deleteDocument`, and the
`links` table has no foreign key, so the row `a.md → b.md` survives the
deletion of `a.md`.  The document row and its chunk are removed (cascade),
and links targeting the path are kept, but the claim's (and the repository
documentation's) requirement that links sourced from the path disappear is
violated. -/
theorem deleteFile_retains_source_links :
    deleteFile
        ⟨[⟨1, "a.md", "c1", none, 3, 0, 0, some 0, none⟩],
         [⟨1, 1, "hello", none, none, 0, 3⟩],
         [⟨1, "a.md", "b.md", "wikilink", "b"⟩],
         [], 2, 2, 2⟩ "a.md" =
      ⟨[], [], [⟨1, "a.md", "b.md", "wikilink", "b"⟩], [], 2, 2, 2⟩ := by
  rfl

/-- C10.  Settings round-trip with the empty-string caveat: a set followed by
a get returns the value when it is non-empty; storing the empty string makes
`getSetting` return null (the JS `|| null` on a falsy value), which is
exactly what an unset key returns. -/
theorem setting_roundtrip (db : DB) (k v : String) (now : Int) :
    (v ≠ "" → getSetting (setSetting db k v now) k = some v) ∧
      getSetting (setSetting db k "" now) k = none ∧
      (∀ db' : DB, (∀ s ∈ db'.settings, s.key ≠ k) → getSetting db' k = none) := by
  have hfind : ∀ w : String,
      (db.settings.filter (fun s => ¬ s.key = k) ++
          [(⟨k, w, now⟩ : SettingRow)]).find? (fun s => s.key = k) =
        some (⟨k, w, now⟩ : SettingRow) := by
    intro w
    rw [List.find?_append]
    have hnone : (db.settings.filter (fun s => ¬ s.key = k)).find?
        (fun s => s.key = k) = none := by
      rw [List.find?_eq_none]
      intro s hs
      have := List.of_mem_filter hs
      simpa using this
    simp [hnone]
  refine ⟨?_, ?_, ?_⟩
  · intro hv
    simp only [getSetting, setSetting]
    rw [hfind v]
    simp [hv]
  · simp only [getSetting, setSetting]
    rw [hfind ""]
    rfl
  · intro db' h
    have hnone : db'.settings.find? (fun s => s.key = k) = none := by
      rw [List.find?_eq_none]
      intro s hs
      simpa using h s hs
    simp [getSetting, hnone]

/-- C10 witness: a concrete round-trip. -/
theorem setting_roundtrip_witness :
    getSetting (setSetting DB.empty "vault.path" "/vault" 7) "vault.path" = some "/vault" ∧
      getSetting (setSetting DB.empty "vault.path" "" 7) "vault.path" = none ∧
      getSetting DB.empty "vault.path" = none := by
  refine ⟨(setting_roundtrip DB.empty "vault.path" "/vault" 7).1 (by decide),
    (setting_roundtrip DB.empty "vault.path" "" 7).2.1,
    (setting_roundtrip DB.empty "vault.path" "" 7).2.2 DB.empty ?_⟩
  intro s hs
  simp [DB.empty] at hs

/-- C3.  Indexing is idempotent on unchanged content: when the stored
document's checksum equals the checksum of the current content, `indexFile`
returns with the database unchanged (no inserted or deleted rows) and the
embedding provider not invoked. -/
theorem indexFile_skip_unchanged (ctx : IndexerCtx) (provider : Option EmbedProvider)
    (db : DB) (relativePath content : String) (createdAt modifiedAt now : Int)
    (h : (getDocumentByPath db relativePath).map DocumentRow.checksum =
      some (ctx.hash content)) :
    indexFile ctx provider db relativePath content createdAt modifiedAt now =
      .ok ⟨db, false, false⟩ := by
  simp [indexFile, h]

/-- C3 witness: re-indexing `a.md` with unchanged content `hello` leaves the
database exactly as it was and does not call the provider. -/
theorem indexFile_skip_unchanged_witness :
    indexFile ctx0 none db1 "a.md" "hello" 0 0 0 = .ok ⟨db1, false, false⟩ :=
  indexFile_skip_unchanged ctx0 none db1 "a.md" "hello" 0 0 0 (by rfl)

/-- `insertChunks` leaves the `documents` table unchanged. -/
theorem insertChunks_documents (documentId : Nat) (modelName : String) :
    ∀ (cs : List StoredChunk) (es : List (Option (List ℚ))) (db : DB),
      (insertChunks db documentId cs es modelName).documents = db.documents
  | [], _, _ => rfl
  | _ :: cs, es, _ => insertChunks_documents documentId modelName cs es.tail _

/-- `insertLinks` leaves the `documents` table unchanged. -/
theorem insertLinks_documents (sourcePath : String) :
    ∀ (lks : List ParsedLink) (db : DB),
      (insertLinks db sourcePath lks).documents = db.documents
  | [], _ => rfl
  | lk :: rest, db => by
    show (insertLinks _ sourcePath rest).documents = db.documents
    rw [insertLinks_documents sourcePath rest]
    split
    · rfl
    · rfl

/-- `insertLinks` leaves the `chunks` table unchanged. -/
theorem insertLinks_chunks (sourcePath : String) :
    ∀ (lks : List ParsedLink) (db : DB),
      (insertLinks db sourcePath lks).chunks = db.chunks
  | [], _ => rfl
  | lk :: rest, db => by
    show (insertLinks _ sourcePath rest).chunks = db.chunks
    rw [insertLinks_chunks sourcePath rest]
    split
    · rfl
    · rfl

/-- Every chunk row present after an `insertChunks` call whose embedding list
is all-null is either a pre-existing row or a row with null embedding and
null embedding model. -/
theorem insertChunks_mem_of_all_none (documentId : Nat) (modelName : String) :
    ∀ (cs : List StoredChunk) (es : List (Option (List ℚ))) (db : DB),
      (∀ e ∈ es, e = none) →
      ∀ c ∈ (insertChunks db documentId cs es modelName).chunks,
        c ∈ db.chunks ∨ (c.embedding = none ∧ c.embeddingModel = none)
  | [], es, db, _, c, hc => Or.inl hc
  | s :: cs, es, db, hes, c, hc => by
    have hhead : (es.head?).join = none := by
      cases es with
      | nil => rfl
      | cons e es' => simpa using hes e (by simp)
    have htail : ∀ e ∈ es.tail, e = none := fun e he => hes e (List.mem_of_mem_tail he)
    simp only [insertChunks] at hc
    rw [hhead] at hc
    simp only [Option.isSome_none, Bool.false_eq_true, if_false] at hc
    rcases insertChunks_mem_of_all_none documentId modelName cs es.tail _ htail c hc with
      hmem | hprop
    · rcases List.mem_append.mp hmem with hold | hnew
      · exact Or.inl hold
      · right
        rcases List.mem_singleton.mp hnew with rfl
        exact ⟨rfl, rfl⟩
    · exact Or.inr hprop

/-- Finding by key in a list purged of that key and then extended with one
matching row yields exactly that row. -/
theorem find?_purge_append {α : Type} (key : α → String) (k : String) (l : List α)
    (x : α) (hx : key x = k) :
    ((l.filter (fun a => ¬ key a = k)) ++ [x]).find? (fun a => key a = k) = some x := by
  rw [List.find?_append]
  have hnone : (l.filter (fun a => ¬ key a = k)).find? (fun a => key a = k) = none := by
    rw [List.find?_eq_none]
    intro a ha
    simpa using List.of_mem_filter ha
  simp [hnone, hx]

/-- `insertChunks` inserts exactly one row per chunk. -/
theorem insertChunks_length (documentId : Nat) (modelName : String) :
    ∀ (cs : List StoredChunk) (es : List (Option (List ℚ))) (db : DB),
      (insertChunks db documentId cs es modelName).chunks.length =
        db.chunks.length + cs.length
  | [], _, _ => rfl
  | _ :: cs, es, db => by
    show (insertChunks _ documentId cs es.tail modelName).chunks.length = _
    rw [insertChunks_length documentId modelName cs es.tail]
    simp only [List.length_append, List.length_cons, List.length_nil]
    omega

/-- C5.  When parsing and chunking succeed but the batch embed call fails,
`indexFile` catches the provider error: it still persists the document and
all of its chunks (each stored row is either pre-existing or carries a null
embedding and a null embedding model), the new document row is present at
the path with the fresh checksum, a warning is reported, and the call
returns normally (`Except.ok`, so nothing propagates). -/
theorem indexFile_embed_failure (ctx : IndexerCtx) (pr : EmbedProvider) (db : DB)
    (relativePath content : String) (createdAt modifiedAt now : Int)
    (c : TextChunk) (cs : List TextChunk) (msg : String)
    (hskip : ¬ (getDocumentByPath db relativePath).map DocumentRow.checksum =
      some (ctx.hash content))
    (hchunks : chunkDocument (ctx.encode (ctx.parse content).content)
      ctx.chunkSize ctx.chunkOverlap = c :: cs)
    (hembed : pr.embed ((storedChunks ctx (c :: cs)).map StoredChunk.content) =
      .error msg) :
    indexFile ctx (some pr) db relativePath content createdAt modifiedAt now =
        .ok ⟨indexDocument db
          ⟨⟨relativePath, ctx.hash content, (ctx.parse content).title,
              ctx.wordCount (ctx.parse content).content, createdAt, modifiedAt,
              (ctx.parse content).frontmatter⟩,
            storedChunks ctx (c :: cs), (c :: cs).map (fun _ => none), "none",
            (ctx.parse content).links⟩ now, true, true⟩ ∧
      (∀ ch ∈ (indexDocument db
          ⟨⟨relativePath, ctx.hash content, (ctx.parse content).title,
              ctx.wordCount (ctx.parse content).content, createdAt, modifiedAt,
              (ctx.parse content).frontmatter⟩,
            storedChunks ctx (c :: cs), (c :: cs).map (fun _ => none), "none",
            (ctx.parse content).links⟩ now).chunks,
        ch ∈ db.chunks ∨ (ch.embedding = none ∧ ch.embeddingModel = none)) ∧
      (∃ d, getDocumentByPath (indexDocument db
          ⟨⟨relativePath, ctx.hash content, (ctx.parse content).title,
              ctx.wordCount (ctx.parse content).content, createdAt, modifiedAt,
              (ctx.parse content).frontmatter⟩,
            storedChunks ctx (c :: cs), (c :: cs).map (fun _ => none), "none",
            (ctx.parse content).links⟩ now) relativePath = some d ∧
        d.checksum = ctx.hash content) ∧
      (indexDocument db
          ⟨⟨relativePath, ctx.hash content, (ctx.parse content).title,
              ctx.wordCount (ctx.parse content).content, createdAt, modifiedAt,
              (ctx.parse content).frontmatter⟩,
            storedChunks ctx (c :: cs), (c :: cs).map (fun _ => none), "none",
            (ctx.parse content).links⟩ now).chunks.length =
        (deleteDocument db relativePath).chunks.length + (c :: cs).length := by
  refine ⟨?_, ?_, ?_, ?_⟩
  · simp [indexFile, hskip, hchunks, hembed]
  · intro ch hch
    simp only [indexDocument, insertDocument, insertLinks_chunks] at hch
    have hall : ∀ e ∈ (c :: cs).map (fun _ => (none : Option (List ℚ))), e = none := by
      intro e he
      rcases List.mem_map.mp he with ⟨a, -, h⟩
      exact h.symm
    rcases insertChunks_mem_of_all_none _ _ _ _ _ hall ch hch with hmem | hprop
    · left
      simp only [deleteLinks, deleteDocument] at hmem
      exact List.mem_of_mem_filter hmem
    · exact Or.inr hprop
  · simp only [indexDocument, insertDocument, getDocumentByPath, insertLinks_documents,
      insertChunks_documents, deleteLinks, deleteDocument]
    exact ⟨_, find?_purge_append DocumentRow.path relativePath db.documents _ rfl, rfl⟩
  · simp only [indexDocument, insertDocument, insertLinks_chunks, insertChunks_length,
      deleteLinks, storedChunks, List.length_map]

/-- C5 witness: indexing the new note `a.md` with content `hello` under a
failing provider persists the document and its single chunk with null
embedding and null embedding model, warns, and returns normally. -/
theorem indexFile_embed_failure_witness :
    indexFile ctx0 (some pr0) DB.empty "a.md" "hello" 0 0 0 =
        .ok ⟨indexDocument DB.empty
          ⟨⟨"a.md", "hello", none, 0, 0, 0, none⟩,
            [⟨"hello", 0, 5⟩], [none], "none", []⟩ 0, true, true⟩ ∧
      ∀ ch ∈ (indexDocument DB.empty
          ⟨⟨"a.md", "hello", none, 0, 0, 0, none⟩,
            [⟨"hello", 0, 5⟩], [none], "none", []⟩ 0).chunks,
        ch.embedding = none ∧ ch.embeddingModel = none := by
  have h := indexFile_embed_failure ctx0 pr0 DB.empty "a.md" "hello" 0 0 0
    ⟨[104, 101, 108, 108, 111], 0, 5⟩ [] "connect ECONNREFUSED"
    (by simp [getDocumentByPath, DB.empty]) (by rfl) (by rfl)
  refine ⟨?_, ?_⟩
  · have := h.1
    simpa [ctx0, storedChunks] using this
  · intro ch hch
    have hmem := h.2.1 ch (by simpa [ctx0, storedChunks] using hch)
    rcases hmem with habs | hok
    · simp [DB.empty] at habs
    · exact hok

/-- Closed form of the accumulation loop on equal-length vectors. -/
theorem simLoop_components (a b : List ℝ) (h : a.length = b.length) :
    ∀ d n m : ℝ,
      simLoop a b d n m =
        (d + (List.zipWith (fun x y => x * y) a b).sum,
          n + (a.map fun x => x * x).sum,
          m + (b.map fun y => y * y).sum) := by
  induction a generalizing b with
  | nil =>
    cases b with
    | nil => intro d n m; simp [simLoop]
    | cons y ys => intro d n m; simp at h
  | cons x xs ih =>
    cases b with
    | nil => intro d n m; simp at h
    | cons y ys =>
      intro d n m
      have hlen : xs.length = ys.length := by simpa using h
      simp only [simLoop, List.zipWith_cons_cons, List.map_cons, List.sum_cons,
        ih ys hlen]
      refine Prod.ext ?_ (Prod.ext ?_ ?_) <;> simp <;> ring

/-- A sum of squares is nonnegative. -/
theorem sumSq_nonneg (v : List ℝ) : 0 ≤ (v.map fun x => x * x).sum := by
  induction v with
  | nil => simp
  | cons x xs ih =>
    simp only [List.map_cons, List.sum_cons]
    exact add_nonneg (mul_self_nonneg x) ih

/-- A sum of squares with one non-zero entry is positive. -/
theorem sumSq_pos (v : List ℝ) (h : ∃ x ∈ v, x ≠ 0) :
    0 < (v.map fun x => x * x).sum := by
  induction v with
  | nil => simp at h
  | cons x xs ih =>
    simp only [List.map_cons, List.sum_cons]
    rcases h with ⟨y, hy, hy0⟩
    rcases List.mem_cons.mp hy with rfl | hmem
    · exact add_pos_of_pos_of_nonneg (mul_self_pos.mpr hy0) (sumSq_nonneg xs)
    · exact add_pos_of_nonneg_of_pos (mul_self_nonneg x) (ih ⟨y, hmem, hy0⟩)

/-- C8.  `cosineSimilarity` maps every non-zero vector paired with itself to
exactly 1 (in exact real arithmetic the `≈` of the claim is equality);
mismatched lengths yield the thrown validation error; and a zero-magnitude
vector on either side yields 0 — the zero denominator is tested for, so no
division error can occur. -/
theorem cosineSimilarity_props :
    (∀ v : List ℝ, (∃ x ∈ v, x ≠ 0) → cosineSimilarity v v = .ok 1) ∧
      (∀ a b : List ℝ, a.length ≠ b.length →
        cosineSimilarity a b = .error "Vectors must have the same length") ∧
      (∀ a b : List ℝ, a.length = b.length →
        ((∀ x ∈ a, x = 0) ∨ (∀ x ∈ b, x = 0)) → cosineSimilarity a b = .ok 0) := by
  refine ⟨?_, ?_, ?_⟩
  · intro v hv
    have hS : 0 < (v.map fun x => x * x).sum := sumSq_pos v hv
    simp only [cosineSimilarity, cosineSimilarityG, ne_eq, not_true_eq_false,
      if_neg, not_not, simLoop_components v v rfl 0 0 0, zero_add]
    rw [if_neg (by simp)]
    have hsq : Real.sqrt ((v.map fun x => x * x).sum) *
        Real.sqrt ((v.map fun x => x * x).sum) = (v.map fun x => x * x).sum :=
      Real.mul_self_sqrt hS.le
    rw [hsq]
    rw [if_neg hS.ne']
    have hzip : List.zipWith (fun x y => x * y) v v = v.map fun x => x * x :=
      List.zipWith_same (fun x y => x * y) v
    rw [hzip, div_self hS.ne']
  · intro a b hab
    simp [cosineSimilarity, cosineSimilarityG, hab]
  · intro a b hab hz
    simp only [cosineSimilarity, cosineSimilarityG, ne_eq]
    rw [if_neg (by simp [hab])]
    rw [simLoop_components a b hab 0 0 0]
    have hzero : Real.sqrt (0 + (a.map fun x => x * x).sum) *
        Real.sqrt (0 + (b.map fun y => y * y).sum) = 0 := by
      rcases hz with ha | hb
      · have : (a.map fun x => x * x).sum = 0 := by
          rw [List.sum_eq_zero]
          intro x hx
          rcases List.mem_map.mp hx with ⟨y, hy, rfl⟩
          rw [ha y hy, mul_zero]
        rw [this]
        simp
      · have : (b.map fun y => y * y).sum = 0 := by
          rw [List.sum_eq_zero]
          intro x hx
          rcases List.mem_map.mp hx with ⟨y, hy, rfl⟩
          rw [hb y hy, mul_zero]
        rw [this]
        simp
    rw [hzero]
    simp

/-- C8 witness: a self-similarity of exactly 1, a length-mismatch error, and
a zero-vector similarity of 0, at concrete vectors. -/
theorem cosineSimilarity_props_witness :
    cosineSimilarity [1, 0] [1, 0] = .ok 1 ∧
      cosineSimilarity [1] [1, 2] = .error "Vectors must have the same length" ∧
      cosineSimilarity [0, 0] [3, 4] = .ok 0 := by
  refine ⟨cosineSimilarity_props.1 [1, 0] ⟨1, by simp, one_ne_zero⟩,
    cosineSimilarity_props.2.1 [1] [1, 2] (by simp),
    cosineSimilarity_props.2.2 [0, 0] [3, 4] (by simp) (Or.inl ?_)⟩
  intro x hx
  rcases List.mem_cons.mp hx with rfl | hx'
  · rfl
  · simpa using hx'

/-- Stability of the search sort: for every score level, the results at that
score appear in exactly the candidate order. -/
theorem insertionSort_filter_score (l : List SearchResult) (s : ℚ) :
    (l.insertionSort scoreRel).filter (fun r => r.score = s) =
      l.filter (fun r => r.score = s) := by
  have hmemB : ∀ r ∈ l.filter (fun r => r.score = s), r.score = s := by
    intro r hr
    simpa using List.of_mem_filter hr
  have hpw : (l.filter (fun r => r.score = s)).Pairwise scoreRel := by
    refine List.pairwise_of_forall_mem_list ?_
    intro a ha b hb
    show b.score ≤ a.score
    rw [hmemB a ha, hmemB b hb]
  have hsub : List.Sublist (l.filter (fun r => r.score = s)) (l.insertionSort scoreRel) :=
    List.sublist_insertionSort hpw (List.filter_sublist l)
  have hsub2 : List.Sublist (l.filter (fun r => r.score = s))
      ((l.insertionSort scoreRel).filter (fun r => r.score = s)) := by
    simpa [List.filter_filter] using hsub.filter (fun r => decide (r.score = s))
  have hperm : List.Perm ((l.insertionSort scoreRel).filter (fun r => r.score = s))
      (l.filter (fun r => r.score = s)) :=
    (List.perm_insertionSort scoreRel l).filter _
  exact (hsub2.eq_of_length hperm.length_eq.symm).symm

/-- C6.  For every query, `topK` and database state, a successful
`searchNotesByVector` call returns at most `topK` results, every returned
score is at least `MIN_SIMILARITY_SCORE`, the scores are non-increasing,
and the underlying sort is stable: at every score level the tied results
keep their candidate insertion order. -/
theorem searchNotesByVector_topk (sqrtFn : ℚ → ℚ) (db : DB) (q : List ℚ) (k : Nat)
    (filter : Option SearchFilter) (res : List SearchResult)
    (h : searchNotesByVector sqrtFn db q k filter = .ok res) :
    res.length ≤ k ∧
      (∀ r ∈ res, MIN_SIMILARITY_SCORE ≤ r.score) ∧
      res.Sorted (fun a b => b.score ≤ a.score) ∧
      ∃ scored, scoreCandidates sqrtFn q (searchCandidates db filter) = .ok scored ∧
        res = ((scored.filter (fun r => MIN_SIMILARITY_SCORE ≤ r.score)).insertionSort
          scoreRel).take k ∧
        ∀ s : ℚ,
          ((scored.filter (fun r => MIN_SIMILARITY_SCORE ≤ r.score)).insertionSort
              scoreRel).filter (fun r => r.score = s) =
            (scored.filter (fun r => MIN_SIMILARITY_SCORE ≤ r.score)).filter
              (fun r => r.score = s) := by
  rw [searchNotesByVector] at h
  cases hsc : scoreCandidates sqrtFn q (searchCandidates db filter) with
  | error e => rw [hsc] at h; simp [Except.map] at h
  | ok scored =>
    rw [hsc] at h
    simp only [Except.map, Except.ok.injEq] at h
    subst h
    refine ⟨List.length_take_le k _, ?_, ?_, scored, rfl, rfl, ?_⟩
    · intro r hr
      have hr' : r ∈ (scored.filter
          (fun r => MIN_SIMILARITY_SCORE ≤ r.score)).insertionSort scoreRel :=
        List.take_subset k _ hr
      have := List.of_mem_filter ((List.mem_insertionSort scoreRel).mp hr')
      simpa using this
    · exact ((List.sorted_insertionSort scoreRel _).sublist (List.take_sublist k _))
    · intro s
      exact insertionSort_filter_score _ s

/-- C6 witness: a concrete search returning one result, whose bound, floor
and sortedness facts come from the theorem. -/
theorem searchNotesByVector_topk_witness :
    ([⟨"a.md", "T", "body", 1⟩] : List SearchResult).length ≤ 10 ∧
      (∀ r ∈ ([⟨"a.md", "T", "body", 1⟩] : List SearchResult),
        MIN_SIMILARITY_SCORE ≤ r.score) ∧
      ([⟨"a.md", "T", "body", 1⟩] : List SearchResult).Sorted
        (fun a b => b.score ≤ a.score) := by
  have hle : MIN_SIMILARITY_SCORE ≤ (1 : ℚ) := by
    rw [MIN_SIMILARITY_SCORE]
    norm_num
  have h : searchNotesByVector (fun q => q) dbSearch [1] 10 none =
      .ok [⟨"a.md", "T", "body", 1⟩] := by
    simp [searchNotesByVector, dbSearch, searchCandidates, scoreCandidates,
      cosineSimilarityG, simLoop, titleOrPath, passesFilters, Except.map, hle]
  have hthm := searchNotesByVector_topk (fun q => q) dbSearch [1] 10 none
    [⟨"a.md", "T", "body", 1⟩] h
  exact ⟨hthm.1, hthm.2.1, hthm.2.2.1⟩

/-- C9.  The tags filter consults only `filter.tags[0]`: with two or more
tags the results are exactly those for the first tag alone.  And the first
tag is matched as a raw substring of the JSON-serialized frontmatter (the SQL
`LIKE '%tag%'`), not by tag-list membership: the query tag `physics` matches
a document whose tag list contains only `physicsfoo`. -/
theorem searchNotesByVector_tags_first_only (sqrtFn : ℚ → ℚ) (db : DB) (q : List ℚ)
    (k : Nat) (tags : List String) (dA dB : Option Int) (h : 2 ≤ tags.length) :
    searchNotesByVector sqrtFn db q k (some ⟨some tags, dA, dB⟩) =
        searchNotesByVector sqrtFn db q k (some ⟨some (tags.take 1), dA, dB⟩) ∧
      searchNotesByVector (fun x => x) dbTags [1] 10
          (some ⟨some ["physics"], none, none⟩) =
        .ok [⟨"t.md", "t.md", "body", 1⟩] := by
  constructor
  · cases tags with
    | nil => simp at h
    | cons t rest => rfl
  · have hle : MIN_SIMILARITY_SCORE ≤ (1 : ℚ) := by
      rw [MIN_SIMILARITY_SCORE]
      norm_num
    have hcontains :
        containsSub ("\x7b\"tags\": [\"physicsfoo\"]\x7d").data ("physics").data = true := by
      decide
    simp [searchNotesByVector, dbTags, searchCandidates, scoreCandidates,
      cosineSimilarityG, simLoop, titleOrPath, passesFilters, Except.map, hle, hcontains]

/-- C9 witness: a concrete search with the two-tag filter `["a", "b"]`
returns exactly the results of the one-tag filter `["a"]`. -/
theorem searchNotesByVector_tags_first_only_witness :
    searchNotesByVector (fun x => x) dbTags [1] 10
        (some ⟨some ["a", "b"], none, none⟩) =
      searchNotesByVector (fun x => x) dbTags [1] 10 (some ⟨some ["a"], none, none⟩) := by
  have h := searchNotesByVector_tags_first_only (fun x => x) dbTags [1] 10 ["a", "b"]
    none none (by decide)
  simpa using h.1
